import Mathlib

/-!
Shallow embedding of the `isa-irq-storm` QEMU device model
(`irq_storm_*` functions) and of the seL4 consumer's stable 64-bit
counter read (`read_u64_lohi_stable`).

Modelling conventions:
- machine integers become `Nat` (unsigned) / `Int` (the signed
  `int64_t` clock and deadline); where the C truncates (casts to
  `uint32_t`, masks to the control bits) the model applies the same
  `% 2^32` / `&&&` operations explicitly;
- the four `uint64_t` telemetry counters are modelled as unbounded
  naturals (each single C update adds at most `IRQ_STORM_MAX_BURST`,
  so 64-bit wraparound is out of reach for any bounded run); register
  reads of their 32-bit halves apply the C casts (`% 2^32`) faithfully;
- `qemu_irq_raise`/`qemu_irq_lower` are reflected in the `irq_asserted`
  field, which is exactly how the C tracks the line level;
  `qemu_irq_pulse` is a transient raise+lower and leaves the level
  unchanged;
- `qemu_clock_get_ns(QEMU_CLOCK_VIRTUAL)` becomes an explicit `now`
  argument to every operation that reads the clock;
- register reads are side-effect free in the C (`irq_storm_read`
  mutates nothing), so they are embedded as a pure function
  `State → addr → value`; writes and timer callbacks are
  `State → State` and are collected in the `IrqStormOp` step relation.
-/

namespace IrqStorm

def IRQ_STORM_REG_CTRL : Nat := 0x00
def IRQ_STORM_REG_IRQ : Nat := 0x01
def IRQ_STORM_REG_BURST : Nat := 0x02
def IRQ_STORM_REG_STATUS : Nat := 0x03
def IRQ_STORM_REG_PERIOD_US : Nat := 0x04
def IRQ_STORM_REG_PULSES_LO : Nat := 0x08
def IRQ_STORM_REG_PULSES_HI : Nat := 0x0c
def IRQ_STORM_REG_TIMER_CB : Nat := 0x10
def IRQ_STORM_REG_CFG_WRITES : Nat := 0x14
def IRQ_STORM_REG_EN_TOGGLES : Nat := 0x18
def IRQ_STORM_REG_ACK : Nat := 0x1c

def IRQ_STORM_CTRL_ENABLE : Nat := 1
def IRQ_STORM_CTRL_LEVEL : Nat := 2

def IRQ_STORM_STATUS_ENABLED : Nat := 1
def IRQ_STORM_STATUS_ASSERT : Nat := 2
def IRQ_STORM_STATUS_LEVEL : Nat := 4

def IRQ_STORM_MAX_BURST : Nat := 100000

/-- `SCALE_US`: nanoseconds per microsecond, as in QEMU's timer scale. -/
def SCALE_US : Nat := 1000

/-- The mutable fields of `struct ISAIrqStormState` (the QOM boilerplate
`parent_obj`, `io`, `timer`, `irq` pointers and the construction-only
`iobase`/`iosize` are not part of the register-visible state). -/
structure ISAIrqStormState where
  isairq : Nat
  burst : Nat
  period_us : Nat
  start_enabled : Bool
  level_triggered : Bool
  control : Nat
  irq_asserted : Bool
  next_deadline_ns : Int
  pulses_emitted : Nat
  timer_cb_count : Nat
  config_writes : Nat
  enable_toggle_count : Nat
  deriving Repr, DecidableEq

/-- `irq_storm_period_ns`: `MAX(1U, s->period_us) * SCALE_US`. -/
def irq_storm_period_ns (s : ISAIrqStormState) : Nat :=
  max 1 s.period_us * SCALE_US

/-- `irq_storm_irq_deassert`: lower the line iff it is currently asserted. -/
def irq_storm_irq_deassert (s : ISAIrqStormState) : ISAIrqStormState :=
  if s.irq_asserted then { s with irq_asserted := false } else s

/-- `irq_storm_schedule_from_now`: re-arm from the current time. -/
def irq_storm_schedule_from_now (now : Int) (s : ISAIrqStormState) :
    ISAIrqStormState :=
  if s.control &&& IRQ_STORM_CTRL_ENABLE = 0 then s
  else { s with next_deadline_ns := now + (irq_storm_period_ns s : Int) }

/-- `irq_storm_schedule_next`: advance the deadline by one period; if it
is not in the future, jump forward by the number of whole missed
periods in one step. -/
def irq_storm_schedule_next (now : Int) (s : ISAIrqStormState) :
    ISAIrqStormState :=
  if s.control &&& IRQ_STORM_CTRL_ENABLE = 0 then s
  else
    let period_ns : Nat := irq_storm_period_ns s
    let d : Int := s.next_deadline_ns + (period_ns : Int)
    if d ≤ now then
      let missed : Nat := (now - d).toNat / period_ns + 1
      { s with next_deadline_ns := d + ((missed * period_ns : Nat) : Int) }
    else
      { s with next_deadline_ns := d }

/-- `irq_storm_timer_cb`: one fire of the periodic timer. -/
def irq_storm_timer_cb (now : Int) (s : ISAIrqStormState) :
    ISAIrqStormState :=
  if s.control &&& IRQ_STORM_CTRL_ENABLE = 0 then s
  else
    let s := { s with timer_cb_count := s.timer_cb_count + 1 }
    let s :=
      if s.control &&& IRQ_STORM_CTRL_LEVEL ≠ 0 then
        if ¬ s.irq_asserted then
          { s with irq_asserted := true,
                   pulses_emitted := s.pulses_emitted + 1 }
        else s
      else
        let pulses : Nat := min (max 1 s.burst) IRQ_STORM_MAX_BURST
        { s with pulses_emitted := s.pulses_emitted + pulses }
    irq_storm_schedule_next now s

/-- `irq_storm_read`: the register-read dispatch; reads mutate nothing,
so the embedding is a pure function.  Casts to `uint32_t` in the C
become `% 2^32`. -/
def irq_storm_read (s : ISAIrqStormState) (addr : Nat) : Nat :=
  if addr = IRQ_STORM_REG_CTRL then s.control
  else if addr = IRQ_STORM_REG_IRQ then s.isairq
  else if addr = IRQ_STORM_REG_BURST then s.burst
  else if addr = IRQ_STORM_REG_STATUS then
    (if s.control &&& IRQ_STORM_CTRL_ENABLE ≠ 0 then
        IRQ_STORM_STATUS_ENABLED else 0) |||
    (if s.irq_asserted then IRQ_STORM_STATUS_ASSERT else 0) |||
    (if s.control &&& IRQ_STORM_CTRL_LEVEL ≠ 0 then
        IRQ_STORM_STATUS_LEVEL else 0)
  else if addr = IRQ_STORM_REG_PERIOD_US then s.period_us
  else if addr = IRQ_STORM_REG_PULSES_LO then s.pulses_emitted % 2 ^ 32
  else if addr = IRQ_STORM_REG_PULSES_HI then
    (s.pulses_emitted >>> 32) % 2 ^ 32
  else if addr = IRQ_STORM_REG_TIMER_CB then s.timer_cb_count % 2 ^ 32
  else if addr = IRQ_STORM_REG_CFG_WRITES then s.config_writes % 2 ^ 32
  else if addr = IRQ_STORM_REG_EN_TOGGLES then
    s.enable_toggle_count % 2 ^ 32
  else 0

/-- The `IRQ_STORM_REG_CTRL` arm of `irq_storm_write`, split into its
four sequential statements (mask-and-count, force-deassert on LEVEL
1→0, toggle accounting, (re)arm or cancel).  `was_level` /
`was_enabled` are computed from the control byte before the write, as
in the C. -/
def irq_storm_write_ctrl_mask (val : Nat) (s : ISAIrqStormState) :
    ISAIrqStormState :=
  let new_control :=
    val &&& (IRQ_STORM_CTRL_ENABLE ||| IRQ_STORM_CTRL_LEVEL)
  if new_control ≠ s.control then
    { s with config_writes := s.config_writes + 1,
             control := new_control }
  else s

def irq_storm_write_ctrl_level_drop (was_level : Bool)
    (s : ISAIrqStormState) : ISAIrqStormState :=
  let is_level : Bool := s.control &&& IRQ_STORM_CTRL_LEVEL != 0
  if was_level && !is_level then irq_storm_irq_deassert s else s

def irq_storm_write_ctrl_toggle (was_enabled : Bool)
    (s : ISAIrqStormState) : ISAIrqStormState :=
  let is_enabled : Bool := s.control &&& IRQ_STORM_CTRL_ENABLE != 0
  if is_enabled != was_enabled then
    { s with enable_toggle_count := s.enable_toggle_count + 1 }
  else s

def irq_storm_write_ctrl_arm (was_enabled : Bool) (now : Int)
    (s : ISAIrqStormState) : ISAIrqStormState :=
  let is_enabled : Bool := s.control &&& IRQ_STORM_CTRL_ENABLE != 0
  if is_enabled then
    if !was_enabled then irq_storm_schedule_from_now now s else s
  else
    irq_storm_irq_deassert s

def irq_storm_write_ctrl (val : Nat) (now : Int)
    (s : ISAIrqStormState) : ISAIrqStormState :=
  let was_level : Bool := s.control &&& IRQ_STORM_CTRL_LEVEL != 0
  let was_enabled : Bool := s.control &&& IRQ_STORM_CTRL_ENABLE != 0
  irq_storm_write_ctrl_arm was_enabled now
    (irq_storm_write_ctrl_toggle was_enabled
      (irq_storm_write_ctrl_level_drop was_level
        (irq_storm_write_ctrl_mask val s)))

/-- The `IRQ_STORM_REG_BURST` arm of `irq_storm_write`; the C compares
and stores `(uint32_t)val`. -/
def irq_storm_write_burst (val : Nat) (s : ISAIrqStormState) :
    ISAIrqStormState :=
  if val % 2 ^ 32 ≠ s.burst then
    { s with burst := val % 2 ^ 32, config_writes := s.config_writes + 1 }
  else s

/-- The `IRQ_STORM_REG_PERIOD_US` arm of `irq_storm_write`. -/
def irq_storm_write_period (val : Nat) (now : Int)
    (s : ISAIrqStormState) : ISAIrqStormState :=
  if val % 2 ^ 32 ≠ s.period_us then
    let s := { s with period_us := val % 2 ^ 32,
                      config_writes := s.config_writes + 1 }
    if s.control &&& IRQ_STORM_CTRL_ENABLE ≠ 0 then
      irq_storm_schedule_from_now now s
    else s
  else s

/-- The `IRQ_STORM_REG_ACK` arm of `irq_storm_write`. -/
def irq_storm_write_ack (val : Nat) (s : ISAIrqStormState) :
    ISAIrqStormState :=
  if val ≠ 0 then irq_storm_irq_deassert s else s

/-- `irq_storm_write`: the register-write dispatch (the C `switch`);
each arm is the correspondingly named helper above.  `timer_del` /
`timer_mod` only affect the host timer object; the model keeps the
deadline field, which is all the register-visible state the C has. -/
def irq_storm_write (addr : Nat) (val : Nat) (now : Int)
    (s : ISAIrqStormState) : ISAIrqStormState :=
  if addr = IRQ_STORM_REG_CTRL then irq_storm_write_ctrl val now s
  else if addr = IRQ_STORM_REG_BURST then irq_storm_write_burst val s
  else if addr = IRQ_STORM_REG_PERIOD_US then
    irq_storm_write_period val now s
  else if addr = IRQ_STORM_REG_ACK then irq_storm_write_ack val s
  else s

/-- The construction-time properties of the device (the
`irq_storm_properties` fields). -/
structure IrqStormConfig where
  iobase : Nat
  iosize : Nat
  isairq : Nat
  burst : Nat
  period_us : Nat
  start_enabled : Bool
  level_triggered : Bool
  deriving Repr, DecidableEq

/-- `irq_storm_realize`: validate the configuration before touching any
resource (in the C both `error_setg` returns happen before
`isa_get_irq`, `timer_new_ns` and the MMIO mapping), then build the
zero-initialised instance and apply the initial LEVEL/ENABLE flags. -/
def irq_storm_realize (cfg : IrqStormConfig) (now : Int) :
    Option ISAIrqStormState :=
  if cfg.isairq > 15 then none
  else if cfg.iosize < 0x20 then none
  else
    let s : ISAIrqStormState :=
      { isairq := cfg.isairq
        burst := cfg.burst
        period_us := cfg.period_us
        start_enabled := cfg.start_enabled
        level_triggered := cfg.level_triggered
        control := 0
        irq_asserted := false
        next_deadline_ns := 0
        pulses_emitted := 0
        timer_cb_count := 0
        config_writes := 0
        enable_toggle_count := 0 }
    let s :=
      if cfg.level_triggered then
        { s with control := s.control ||| IRQ_STORM_CTRL_LEVEL }
      else s
    if cfg.start_enabled then
      some (irq_storm_schedule_from_now now
        { s with control := s.control ||| IRQ_STORM_CTRL_ENABLE })
    else some s

/-- One externally triggered state change of the device: a register
write on the emulated bus, or a fire of the QEMU timer.  Register reads
do not change state (`irq_storm_read` is pure), so they need no case. -/
inductive IrqStormOp where
  | write (addr val : Nat) (now : Int)
  | fire (now : Int)
  deriving Repr, DecidableEq

def irq_storm_step (op : IrqStormOp) (s : ISAIrqStormState) :
    ISAIrqStormState :=
  match op with
  | .write addr val now => irq_storm_write addr val now s
  | .fire now => irq_storm_timer_cb now s

def irq_storm_run (ops : List IrqStormOp) (s : ISAIrqStormState) :
    ISAIrqStormState :=
  match ops with
  | [] => s
  | op :: rest => irq_storm_run rest (irq_storm_step op s)

/-- A state is reachable when it arises from a successful `realize`
followed by any sequence of register writes and timer fires. -/
def IrqStormReachable (s : ISAIrqStormState) : Prop :=
  ∃ cfg now s0 ops, irq_storm_realize cfg now = some s0 ∧
    s = irq_storm_run ops s0

/-- One attempt of the consumer's `read_u64_lohi_stable` loop body:
`hi1` is sampled from the device state at the first HI read, `lo` from
the state at the LO read, `hi2` from the state at the second HI read;
the attempt is accepted iff the two HI samples agree, and then returns
`((uint64_t)hi2 << 32) | lo`. -/
def stable_read_attempt (s1 s2 s3 : ISAIrqStormState) : Option Nat :=
  let hi1 := irq_storm_read s1 IRQ_STORM_REG_PULSES_HI
  let lo := irq_storm_read s2 IRQ_STORM_REG_PULSES_LO
  let hi2 := irq_storm_read s3 IRQ_STORM_REG_PULSES_HI
  if hi1 = hi2 then some ((hi2 <<< 32) ||| lo) else none

/-- `read_u64_lohi_stable`: retry attempts until one is accepted.  Each
element of the list carries the three device states seen at the three
register reads of that attempt. -/
def read_u64_lohi_stable :
    List (ISAIrqStormState × ISAIrqStormState × ISAIrqStormState) →
    Option Nat
  | [] => none
  | (a, b, c) :: rest =>
    match stable_read_attempt a b c with
    | some r => some r
    | none => read_u64_lohi_stable rest

/-- The four telemetry counters of `s` are bounded by those of `t`. -/
def counters_le (s t : ISAIrqStormState) : Prop :=
  s.pulses_emitted ≤ t.pulses_emitted ∧
  s.timer_cb_count ≤ t.timer_cb_count ∧
  s.config_writes ≤ t.config_writes ∧
  s.enable_toggle_count ≤ t.enable_toggle_count

/-- The line is held high only while the device is enabled and in level
mode (`qemu_irq_raise` is only reached under both control bits, and
clearing either bit forces a deassert). -/
def irq_storm_inv (s : ISAIrqStormState) : Prop :=
  s.irq_asserted = true →
    s.control &&& IRQ_STORM_CTRL_ENABLE ≠ 0 ∧
    s.control &&& IRQ_STORM_CTRL_LEVEL ≠ 0

/-- The offsets of the register table in §4.1 of the spec (the `case`
labels of `irq_storm_read` / `irq_storm_write`). -/
def irq_storm_defined_offsets : List Nat :=
  [IRQ_STORM_REG_CTRL, IRQ_STORM_REG_IRQ, IRQ_STORM_REG_BURST,
   IRQ_STORM_REG_STATUS, IRQ_STORM_REG_PERIOD_US, IRQ_STORM_REG_PULSES_LO,
   IRQ_STORM_REG_PULSES_HI, IRQ_STORM_REG_TIMER_CB,
   IRQ_STORM_REG_CFG_WRITES, IRQ_STORM_REG_EN_TOGGLES, IRQ_STORM_REG_ACK]

/-! Concrete fixture configurations and states (the device's property
defaults, with small bursts), used to instantiate the theorems. -/

def cfg_edge : IrqStormConfig :=
  { iobase := 0x560, iosize := 0x20, isairq := 5, burst := 5,
    period_us := 100, start_enabled := true, level_triggered := false }

def s_edge : ISAIrqStormState :=
  { isairq := 5, burst := 5, period_us := 100, start_enabled := true,
    level_triggered := false, control := 1, irq_asserted := false,
    next_deadline_ns := 100000, pulses_emitted := 0, timer_cb_count := 0,
    config_writes := 0, enable_toggle_count := 0 }

def cfg_level : IrqStormConfig :=
  { iobase := 0x560, iosize := 0x20, isairq := 5, burst := 5,
    period_us := 100, start_enabled := true, level_triggered := true }

def s_level : ISAIrqStormState :=
  { isairq := 5, burst := 5, period_us := 100, start_enabled := true,
    level_triggered := true, control := 3, irq_asserted := false,
    next_deadline_ns := 100000, pulses_emitted := 0, timer_cb_count := 0,
    config_writes := 0, enable_toggle_count := 0 }

def cfg_disabled : IrqStormConfig :=
  { iobase := 0x560, iosize := 0x20, isairq := 5, burst := 5,
    period_us := 100, start_enabled := false, level_triggered := false }

def s_disabled : ISAIrqStormState :=
  { isairq := 5, burst := 5, period_us := 100, start_enabled := false,
    level_triggered := false, control := 0, irq_asserted := false,
    next_deadline_ns := 0, pulses_emitted := 0, timer_cb_count := 0,
    config_writes := 0, enable_toggle_count := 0 }

def cfg_bad_irq : IrqStormConfig :=
  { iobase := 0x560, iosize := 0x20, isairq := 16, burst := 5,
    period_us := 100, start_enabled := true, level_triggered := false }

/-- `s_edge` after one timer fire at virtual time 100000 ns. -/
def s_edge_fired : ISAIrqStormState :=
  { isairq := 5, burst := 5, period_us := 100, start_enabled := true,
    level_triggered := false, control := 1, irq_asserted := false,
    next_deadline_ns := 200000, pulses_emitted := 5, timer_cb_count := 1,
    config_writes := 0, enable_toggle_count := 0 }

/-- An enabled edge-mode state with a 1 µs period and a deadline at 0,
used to exercise the drift-correction arithmetic. -/
def s_drift : ISAIrqStormState :=
  { isairq := 5, burst := 1, period_us := 1, start_enabled := true,
    level_triggered := false, control := 1, irq_asserted := false,
    next_deadline_ns := 0, pulses_emitted := 0, timer_cb_count := 0,
    config_writes := 0, enable_toggle_count := 0 }

/-- In level mode, `pulses_emitted` plus the pending-assert budget (1
while the line is low, 0 while it is held) is preserved by fires. -/
def levelMeasure (s : ISAIrqStormState) : Nat :=
  s.pulses_emitted + (if s.irq_asserted then 0 else 1)

/-! ### Helper lemmas: closed forms for the small state transformers -/

lemma irq_storm_irq_deassert_eq (s : ISAIrqStormState) :
    irq_storm_irq_deassert s = { s with irq_asserted := false } := by
  cases s
  unfold irq_storm_irq_deassert
  split_ifs <;> simp_all

lemma irq_storm_write_ctrl_mask_eq (val : Nat) (s : ISAIrqStormState) :
    irq_storm_write_ctrl_mask val s =
      { s with
        control := val &&& (IRQ_STORM_CTRL_ENABLE ||| IRQ_STORM_CTRL_LEVEL)
        config_writes := s.config_writes +
          (if val &&& (IRQ_STORM_CTRL_ENABLE ||| IRQ_STORM_CTRL_LEVEL) =
              s.control then 0 else 1) } := by
  cases s
  unfold irq_storm_write_ctrl_mask
  split_ifs <;> simp_all

lemma irq_storm_write_ctrl_level_drop_eq (w : Bool)
    (s : ISAIrqStormState) :
    irq_storm_write_ctrl_level_drop w s =
      if w && !(s.control &&& IRQ_STORM_CTRL_LEVEL != 0) then
        { s with irq_asserted := false }
      else s := by
  unfold irq_storm_write_ctrl_level_drop
  rw [irq_storm_irq_deassert_eq]

lemma irq_storm_write_ctrl_toggle_eq (w : Bool) (s : ISAIrqStormState) :
    irq_storm_write_ctrl_toggle w s =
      { s with enable_toggle_count := s.enable_toggle_count +
          (if (s.control &&& IRQ_STORM_CTRL_ENABLE != 0) = w then 0
           else 1) } := by
  cases s
  unfold irq_storm_write_ctrl_toggle
  split_ifs <;> simp_all

lemma irq_storm_write_ctrl_arm_eq (w : Bool) (now : Int)
    (s : ISAIrqStormState) :
    irq_storm_write_ctrl_arm w now s =
      if s.control &&& IRQ_STORM_CTRL_ENABLE != 0 then
        if w then s
        else { s with
          next_deadline_ns := now + (irq_storm_period_ns s : Int) }
      else { s with irq_asserted := false } := by
  unfold irq_storm_write_ctrl_arm irq_storm_schedule_from_now
  rw [irq_storm_irq_deassert_eq]
  by_cases he : s.control &&& IRQ_STORM_CTRL_ENABLE = 0 <;> cases w <;>
    simp_all

lemma irq_storm_write_burst_eq (val : Nat) (s : ISAIrqStormState) :
    irq_storm_write_burst val s =
      { s with
        burst := val % 2 ^ 32
        config_writes := s.config_writes +
          (if val % 2 ^ 32 = s.burst then 0 else 1) } := by
  cases s
  unfold irq_storm_write_burst
  split_ifs <;> simp_all

lemma irq_storm_write_period_eq (val : Nat) (now : Int)
    (s : ISAIrqStormState) :
    irq_storm_write_period val now s =
      if val % 2 ^ 32 = s.period_us then s
      else if s.control &&& IRQ_STORM_CTRL_ENABLE ≠ 0 then
        { s with
          period_us := val % 2 ^ 32
          config_writes := s.config_writes + 1
          next_deadline_ns :=
            now + ((max 1 (val % 2 ^ 32) * SCALE_US : Nat) : Int) }
      else
        { s with
          period_us := val % 2 ^ 32
          config_writes := s.config_writes + 1 } := by
  unfold irq_storm_write_period irq_storm_schedule_from_now
    irq_storm_period_ns
  split_ifs <;> simp_all

lemma irq_storm_write_ack_eq (val : Nat) (s : ISAIrqStormState) :
    irq_storm_write_ack val s =
      if val ≠ 0 then { s with irq_asserted := false } else s := by
  unfold irq_storm_write_ack
  rw [irq_storm_irq_deassert_eq]

/-- `irq_storm_schedule_next` only moves the deadline. -/
lemma irq_storm_schedule_next_ex (now : Int) (s : ISAIrqStormState) :
    ∃ d : Int, irq_storm_schedule_next now s =
      { s with next_deadline_ns := d } := by
  unfold irq_storm_schedule_next
  by_cases h : s.control &&& IRQ_STORM_CTRL_ENABLE = 0
  · rw [if_pos h]
    exact ⟨s.next_deadline_ns, by cases s; rfl⟩
  · rw [if_neg h]
    dsimp only
    split_ifs <;> exact ⟨_, rfl⟩

lemma irq_storm_timer_cb_disabled (now : Int) (s : ISAIrqStormState)
    (h : s.control &&& IRQ_STORM_CTRL_ENABLE = 0) :
    irq_storm_timer_cb now s = s := by
  unfold irq_storm_timer_cb
  simp [h]

lemma irq_storm_timer_cb_level_raise (now : Int) (s : ISAIrqStormState)
    (hen : s.control &&& IRQ_STORM_CTRL_ENABLE ≠ 0)
    (hlv : s.control &&& IRQ_STORM_CTRL_LEVEL ≠ 0)
    (hna : s.irq_asserted = false) :
    ∃ d : Int, irq_storm_timer_cb now s =
      { s with
        timer_cb_count := s.timer_cb_count + 1
        irq_asserted := true
        pulses_emitted := s.pulses_emitted + 1
        next_deadline_ns := d } := by
  unfold irq_storm_timer_cb
  simp only [hen, if_neg, if_false, hlv, hna]
  obtain ⟨d, hd⟩ := irq_storm_schedule_next_ex now
    { s with timer_cb_count := s.timer_cb_count + 1,
             irq_asserted := true,
             pulses_emitted := s.pulses_emitted + 1 }
  exact ⟨d, by simp_all⟩

lemma irq_storm_timer_cb_level_held (now : Int) (s : ISAIrqStormState)
    (hen : s.control &&& IRQ_STORM_CTRL_ENABLE ≠ 0)
    (hlv : s.control &&& IRQ_STORM_CTRL_LEVEL ≠ 0)
    (ha : s.irq_asserted = true) :
    ∃ d : Int, irq_storm_timer_cb now s =
      { s with
        timer_cb_count := s.timer_cb_count + 1
        next_deadline_ns := d } := by
  unfold irq_storm_timer_cb
  obtain ⟨d, hd⟩ := irq_storm_schedule_next_ex now
    { s with timer_cb_count := s.timer_cb_count + 1 }
  exact ⟨d, by simp_all⟩

lemma irq_storm_timer_cb_edge (now : Int) (s : ISAIrqStormState)
    (hen : s.control &&& IRQ_STORM_CTRL_ENABLE ≠ 0)
    (hlv : s.control &&& IRQ_STORM_CTRL_LEVEL = 0) :
    ∃ d : Int, irq_storm_timer_cb now s =
      { s with
        timer_cb_count := s.timer_cb_count + 1
        pulses_emitted := s.pulses_emitted +
          min (max 1 s.burst) IRQ_STORM_MAX_BURST
        next_deadline_ns := d } := by
  unfold irq_storm_timer_cb
  obtain ⟨d, hd⟩ := irq_storm_schedule_next_ex now
    { s with timer_cb_count := s.timer_cb_count + 1,
             pulses_emitted := s.pulses_emitted +
               min (max 1 s.burst) IRQ_STORM_MAX_BURST }
  exact ⟨d, by simp_all⟩

/-! ### Helper lemmas: counter monotonicity -/

lemma counters_le_refl (s : ISAIrqStormState) : counters_le s s :=
  ⟨le_refl _, le_refl _, le_refl _, le_refl _⟩

lemma counters_le_trans {s t u : ISAIrqStormState}
    (h1 : counters_le s t) (h2 : counters_le t u) : counters_le s u :=
  ⟨h1.1.trans h2.1, h1.2.1.trans h2.2.1, h1.2.2.1.trans h2.2.2.1,
    h1.2.2.2.trans h2.2.2.2⟩

lemma counters_le_write_ctrl (val : Nat) (now : Int)
    (s : ISAIrqStormState) :
    counters_le s (irq_storm_write_ctrl val now s) := by
  unfold irq_storm_write_ctrl
  refine counters_le_trans (t := irq_storm_write_ctrl_mask val s) ?_
    (counters_le_trans
      (t := irq_storm_write_ctrl_level_drop
        (s.control &&& IRQ_STORM_CTRL_LEVEL != 0)
        (irq_storm_write_ctrl_mask val s)) ?_
      (counters_le_trans
        (t := irq_storm_write_ctrl_toggle
          (s.control &&& IRQ_STORM_CTRL_ENABLE != 0)
          (irq_storm_write_ctrl_level_drop
            (s.control &&& IRQ_STORM_CTRL_LEVEL != 0)
            (irq_storm_write_ctrl_mask val s))) ?_ ?_))
  · rw [irq_storm_write_ctrl_mask_eq]
    exact ⟨le_refl _, le_refl _, Nat.le_add_right _ _, le_refl _⟩
  · rw [irq_storm_write_ctrl_level_drop_eq]
    split_ifs <;> exact counters_le_refl _
  · rw [irq_storm_write_ctrl_toggle_eq]
    exact ⟨le_refl _, le_refl _, le_refl _, Nat.le_add_right _ _⟩
  · rw [irq_storm_write_ctrl_arm_eq]
    split_ifs <;> exact counters_le_refl _
lemma counters_le_write (addr val : Nat) (now : Int)
    (s : ISAIrqStormState) :
    counters_le s (irq_storm_write addr val now s) := by
  unfold irq_storm_write
  split_ifs
  · exact counters_le_write_ctrl val now s
  · rw [irq_storm_write_burst_eq]
    exact ⟨le_refl _, le_refl _, Nat.le_add_right _ _, le_refl _⟩
  · rw [irq_storm_write_period_eq]
    split_ifs <;>
      first
      | exact counters_le_refl _
      | exact ⟨le_refl _, le_refl _, Nat.le_add_right _ _, le_refl _⟩
  · rw [irq_storm_write_ack_eq]
    split_ifs <;> exact counters_le_refl _
  · exact counters_le_refl _

lemma counters_le_timer_cb (now : Int) (s : ISAIrqStormState) :
    counters_le s (irq_storm_timer_cb now s) := by
  by_cases hen : s.control &&& IRQ_STORM_CTRL_ENABLE = 0
  · rw [irq_storm_timer_cb_disabled now s hen]
    exact counters_le_refl s
  · by_cases hlv : s.control &&& IRQ_STORM_CTRL_LEVEL = 0
    · obtain ⟨d, hd⟩ := irq_storm_timer_cb_edge now s hen hlv
      rw [hd]
      exact ⟨Nat.le_add_right _ _, Nat.le_add_right _ _, le_refl _,
        le_refl _⟩
    · cases ha : s.irq_asserted with
      | false =>
        obtain ⟨d, hd⟩ := irq_storm_timer_cb_level_raise now s hen hlv ha
        rw [hd]
        exact ⟨Nat.le_add_right _ _, Nat.le_add_right _ _, le_refl _,
          le_refl _⟩
      | true =>
        obtain ⟨d, hd⟩ := irq_storm_timer_cb_level_held now s hen hlv ha
        rw [hd]
        exact ⟨le_refl _, Nat.le_add_right _ _, le_refl _, le_refl _⟩

lemma counters_le_step (op : IrqStormOp) (s : ISAIrqStormState) :
    counters_le s (irq_storm_step op s) := by
  cases op with
  | write addr val now => exact counters_le_write addr val now s
  | fire now => exact counters_le_timer_cb now s

lemma counters_le_run (ops : List IrqStormOp) (s : ISAIrqStormState) :
    counters_le s (irq_storm_run ops s) := by
  induction ops generalizing s with
  | nil => exact counters_le_refl s
  | cons op rest ih =>
    exact counters_le_trans (counters_le_step op s)
      (ih (irq_storm_step op s))

lemma pulses_le_run (ops : List IrqStormOp) (s : ISAIrqStormState) :
    s.pulses_emitted ≤ (irq_storm_run ops s).pulses_emitted :=
  (counters_le_run ops s).1

/-! ### Helper lemmas: field projections through the CTRL write stages -/

lemma drop_config_writes (w : Bool) (s : ISAIrqStormState) :
    (irq_storm_write_ctrl_level_drop w s).config_writes =
      s.config_writes := by
  rw [irq_storm_write_ctrl_level_drop_eq]; split_ifs <;> rfl

lemma toggle_config_writes (w : Bool) (s : ISAIrqStormState) :
    (irq_storm_write_ctrl_toggle w s).config_writes = s.config_writes := by
  rw [irq_storm_write_ctrl_toggle_eq]

lemma arm_config_writes (w : Bool) (now : Int) (s : ISAIrqStormState) :
    (irq_storm_write_ctrl_arm w now s).config_writes =
      s.config_writes := by
  rw [irq_storm_write_ctrl_arm_eq]; split_ifs <;> rfl

lemma mask_enable_toggle_count (val : Nat) (s : ISAIrqStormState) :
    (irq_storm_write_ctrl_mask val s).enable_toggle_count =
      s.enable_toggle_count := by
  rw [irq_storm_write_ctrl_mask_eq]

lemma drop_enable_toggle_count (w : Bool) (s : ISAIrqStormState) :
    (irq_storm_write_ctrl_level_drop w s).enable_toggle_count =
      s.enable_toggle_count := by
  rw [irq_storm_write_ctrl_level_drop_eq]; split_ifs <;> rfl

lemma arm_enable_toggle_count (w : Bool) (now : Int)
    (s : ISAIrqStormState) :
    (irq_storm_write_ctrl_arm w now s).enable_toggle_count =
      s.enable_toggle_count := by
  rw [irq_storm_write_ctrl_arm_eq]; split_ifs <;> rfl

lemma mask_control (val : Nat) (s : ISAIrqStormState) :
    (irq_storm_write_ctrl_mask val s).control =
      val &&& (IRQ_STORM_CTRL_ENABLE ||| IRQ_STORM_CTRL_LEVEL) := by
  rw [irq_storm_write_ctrl_mask_eq]

lemma drop_control (w : Bool) (s : ISAIrqStormState) :
    (irq_storm_write_ctrl_level_drop w s).control = s.control := by
  rw [irq_storm_write_ctrl_level_drop_eq]; split_ifs <;> rfl

lemma toggle_control (w : Bool) (s : ISAIrqStormState) :
    (irq_storm_write_ctrl_toggle w s).control = s.control := by
  rw [irq_storm_write_ctrl_toggle_eq]

lemma drop_pulses (w : Bool) (s : ISAIrqStormState) :
    (irq_storm_write_ctrl_level_drop w s).pulses_emitted =
      s.pulses_emitted := by
  rw [irq_storm_write_ctrl_level_drop_eq]; split_ifs <;> rfl

lemma bne_zero_eq_iff {a b : Nat} (ha : a ≤ 1) (hb : b ≤ 1) :
    ((a != 0) = (b != 0)) ↔ a = b := by
  interval_cases a <;> interval_cases b <;> simp

lemma mask_irq_asserted (val : Nat) (s : ISAIrqStormState) :
    (irq_storm_write_ctrl_mask val s).irq_asserted = s.irq_asserted := by
  rw [irq_storm_write_ctrl_mask_eq]

lemma toggle_irq_asserted (w : Bool) (s : ISAIrqStormState) :
    (irq_storm_write_ctrl_toggle w s).irq_asserted = s.irq_asserted := by
  rw [irq_storm_write_ctrl_toggle_eq]

lemma arm_control (w : Bool) (now : Int) (s : ISAIrqStormState) :
    (irq_storm_write_ctrl_arm w now s).control = s.control := by
  rw [irq_storm_write_ctrl_arm_eq]; split_ifs <;> rfl

lemma arm_asserted_true (w : Bool) (now : Int) (s : ISAIrqStormState)
    (h : (irq_storm_write_ctrl_arm w now s).irq_asserted = true) :
    s.irq_asserted = true ∧ s.control &&& IRQ_STORM_CTRL_ENABLE ≠ 0 := by
  rw [irq_storm_write_ctrl_arm_eq] at h
  split_ifs at h with h1 h2 <;> simp_all

/-! ### Helper lemmas: the line-low invariant is inductive -/

lemma irq_storm_inv_write_ctrl (val : Nat) (now : Int)
    (s : ISAIrqStormState) (h : irq_storm_inv s) :
    irq_storm_inv (irq_storm_write_ctrl val now s) := by
  intro hA
  unfold irq_storm_write_ctrl at hA ⊢
  obtain ⟨hDA, hDE⟩ := arm_asserted_true _ _ _ hA
  rw [toggle_irq_asserted] at hDA
  rw [toggle_control, drop_control, mask_control] at hDE
  rw [arm_control, toggle_control, drop_control, mask_control]
  refine ⟨hDE, ?_⟩
  rw [irq_storm_write_ctrl_level_drop_eq] at hDA
  split_ifs at hDA with hc
  rw [mask_irq_asserted] at hDA
  obtain ⟨-, hsL⟩ := h hDA
  rw [mask_control] at hc
  simp only [Bool.and_eq_true, Bool.not_eq_true', bne_eq_false_iff_eq,
    not_and, bne_iff_ne, ne_eq] at hc
  intro hz
  exact (hc (by simpa using hsL)) hz

lemma irq_storm_inv_write (addr val : Nat) (now : Int)
    (s : ISAIrqStormState) (h : irq_storm_inv s) :
    irq_storm_inv (irq_storm_write addr val now s) := by
  unfold irq_storm_write
  split_ifs with h0 h1 h2 h3
  · exact irq_storm_inv_write_ctrl val now s h
  · rw [irq_storm_write_burst_eq]
    intro hA
    exact h hA
  · rw [irq_storm_write_period_eq]
    split_ifs <;> intro hA <;> exact h hA
  · rw [irq_storm_write_ack_eq]
    split_ifs with hz
    · intro hA
      simp at hA
    · exact h
  · exact h

lemma irq_storm_inv_timer_cb (now : Int) (s : ISAIrqStormState)
    (h : irq_storm_inv s) :
    irq_storm_inv (irq_storm_timer_cb now s) := by
  by_cases hen : s.control &&& IRQ_STORM_CTRL_ENABLE = 0
  · rw [irq_storm_timer_cb_disabled now s hen]
    exact h
  · by_cases hlv : s.control &&& IRQ_STORM_CTRL_LEVEL = 0
    · obtain ⟨d, hd⟩ := irq_storm_timer_cb_edge now s hen hlv
      rw [hd]
      intro hA
      exact h hA
    · cases ha : s.irq_asserted with
      | false =>
        obtain ⟨d, hd⟩ := irq_storm_timer_cb_level_raise now s hen hlv ha
        rw [hd]
        intro _
        exact ⟨hen, hlv⟩
      | true =>
        obtain ⟨d, hd⟩ := irq_storm_timer_cb_level_held now s hen hlv ha
        rw [hd]
        intro _
        exact ⟨hen, hlv⟩

lemma irq_storm_inv_step (op : IrqStormOp) (s : ISAIrqStormState)
    (h : irq_storm_inv s) : irq_storm_inv (irq_storm_step op s) := by
  cases op with
  | write addr val now => exact irq_storm_inv_write addr val now s h
  | fire now => exact irq_storm_inv_timer_cb now s h

lemma irq_storm_inv_run (ops : List IrqStormOp) (s : ISAIrqStormState)
    (h : irq_storm_inv s) : irq_storm_inv (irq_storm_run ops s) := by
  induction ops generalizing s with
  | nil => exact h
  | cons op rest ih => exact ih _ (irq_storm_inv_step op s h)

/-- Closed form of `irq_storm_realize`. -/
lemma irq_storm_realize_eq (cfg : IrqStormConfig) (now : Int) :
    irq_storm_realize cfg now =
      if cfg.isairq > 15 ∨ cfg.iosize < 0x20 then none
      else some
        { isairq := cfg.isairq
          burst := cfg.burst
          period_us := cfg.period_us
          start_enabled := cfg.start_enabled
          level_triggered := cfg.level_triggered
          control := (if cfg.level_triggered then 2 else 0) +
            (if cfg.start_enabled then 1 else 0)
          irq_asserted := false
          next_deadline_ns :=
            if cfg.start_enabled then
              now + ((max 1 cfg.period_us * SCALE_US : Nat) : Int)
            else 0
          pulses_emitted := 0
          timer_cb_count := 0
          config_writes := 0
          enable_toggle_count := 0 } := by
  unfold irq_storm_realize irq_storm_schedule_from_now irq_storm_period_ns
  have hL : IRQ_STORM_CTRL_LEVEL = 2 := rfl
  have hE : IRQ_STORM_CTRL_ENABLE = 1 := rfl
  have hc1 : (2 ||| 1 : Nat) = 3 := rfl
  have hc2 : ((3 : Nat) &&& 1) = 1 := rfl
  have hc3 : (0 ||| 1 : Nat) = 1 := rfl
  have hc4 : ((1 : Nat) &&& 1) = 1 := rfl
  have hc5 : (0 ||| 2 : Nat) = 2 := rfl
  by_cases h1 : cfg.isairq > 15 <;> by_cases h2 : cfg.iosize < 0x20 <;>
    by_cases h3 : cfg.level_triggered <;>
    by_cases h4 : cfg.start_enabled <;>
    simp [h1, h2, h3, h4, hL, hE, hc1, hc2, hc3, hc4, hc5]

lemma irq_storm_realize_not_asserted (cfg : IrqStormConfig) (now : Int)
    (s : ISAIrqStormState) (h : irq_storm_realize cfg now = some s) :
    s.irq_asserted = false := by
  rw [irq_storm_realize_eq] at h
  by_cases hbad : cfg.isairq > 15 ∨ cfg.iosize < 0x20
  · rw [if_pos hbad] at h
    exact absurd h (by simp)
  · rw [if_neg hbad] at h
    injection h with h
    rw [← h]

lemma irq_storm_inv_realize (cfg : IrqStormConfig) (now : Int)
    (s : ISAIrqStormState) (h : irq_storm_realize cfg now = some s) :
    irq_storm_inv s := by
  intro hA
  rw [irq_storm_realize_not_asserted cfg now s h] at hA
  exact (Bool.false_ne_true hA).elim

lemma irq_storm_inv_reachable (s : ISAIrqStormState)
    (h : IrqStormReachable s) : irq_storm_inv s := by
  obtain ⟨cfg, now, s0, ops, hre, hrun⟩ := h
  rw [hrun]
  exact irq_storm_inv_run ops s0 (irq_storm_inv_realize cfg now s0 hre)

/-! ### Claim theorems -/

/-- C1: for every device state and every operation (register reads are
pure, so only writes — to any offset — and timer-fire callbacks change
state), the four 64-bit counters `pulses_emitted`, `timer_cb_count`,
`config_writes` and `enable_toggle_count` never decrease, over single
operations and over arbitrary operation sequences; hence no operation
other than construction resets any of them. -/
theorem irq_storm_counters_monotone :
    (∀ (op : IrqStormOp) (s : ISAIrqStormState),
       counters_le s (irq_storm_step op s)) ∧
    (∀ (ops : List IrqStormOp) (s : ISAIrqStormState),
       counters_le s (irq_storm_run ops s)) :=
  ⟨counters_le_step, counters_le_run⟩

/-- C5: configuration-change accounting is debounced: a CTRL write bumps
`config_writes` iff the masked value differs from the stored control
byte; BURST / PERIOD_US writes bump it iff the written 32-bit value
differs from the stored one; and a CTRL write bumps
`enable_toggle_count` iff the ENABLE bit changes, in either
direction. -/
theorem irq_storm_config_debounce (s : ISAIrqStormState) (val : Nat)
    (now : Int) :
    ((irq_storm_write IRQ_STORM_REG_CTRL val now s).config_writes =
      s.config_writes + (if val &&& 3 = s.control then 0 else 1)) ∧
    ((irq_storm_write IRQ_STORM_REG_BURST val now s).config_writes =
      s.config_writes + (if val % 2 ^ 32 = s.burst then 0 else 1)) ∧
    ((irq_storm_write IRQ_STORM_REG_PERIOD_US val now s).config_writes =
      s.config_writes + (if val % 2 ^ 32 = s.period_us then 0 else 1)) ∧
    ((irq_storm_write IRQ_STORM_REG_CTRL val now s).enable_toggle_count =
      s.enable_toggle_count +
        (if (val &&& 3) &&& 1 = s.control &&& 1 then 0 else 1)) := by
  have hw_ctrl : irq_storm_write IRQ_STORM_REG_CTRL val now s =
      irq_storm_write_ctrl val now s := by
    simp [irq_storm_write]
  have hw_burst : irq_storm_write IRQ_STORM_REG_BURST val now s =
      irq_storm_write_burst val s := by
    simp [irq_storm_write, IRQ_STORM_REG_BURST, IRQ_STORM_REG_CTRL]
  have hw_period : irq_storm_write IRQ_STORM_REG_PERIOD_US val now s =
      irq_storm_write_period val now s := by
    simp [irq_storm_write, IRQ_STORM_REG_PERIOD_US, IRQ_STORM_REG_CTRL,
      IRQ_STORM_REG_BURST]
  have hmask3 : IRQ_STORM_CTRL_ENABLE ||| IRQ_STORM_CTRL_LEVEL = 3 := rfl
  refine ⟨?_, ?_, ?_, ?_⟩
  · rw [hw_ctrl]
    unfold irq_storm_write_ctrl
    rw [arm_config_writes, toggle_config_writes, drop_config_writes,
      irq_storm_write_ctrl_mask_eq, hmask3]
  · rw [hw_burst, irq_storm_write_burst_eq]
  · rw [hw_period, irq_storm_write_period_eq]
    split_ifs <;> simp_all
  · rw [hw_ctrl]
    unfold irq_storm_write_ctrl
    rw [arm_enable_toggle_count, irq_storm_write_ctrl_toggle_eq]
    dsimp only
    rw [drop_enable_toggle_count, mask_enable_toggle_count,
      drop_control, mask_control, hmask3]
    have h1 : IRQ_STORM_CTRL_ENABLE = 1 := rfl
    rw [h1]
    rw [if_congr (bne_zero_eq_iff (Nat.and_le_right)
      (Nat.and_le_right)) rfl rfl]

/-- C10: whenever the ENABLE control bit is clear, the line is not
asserted: this holds in every reachable state (it holds at
construction, a CTRL write that clears ENABLE deasserts the line in the
same operation, and timer fires only assert while ENABLE is set), and a
stale timer fire on a disabled device is a complete no-op. -/
theorem irq_storm_disabled_line_low :
    (∀ s : ISAIrqStormState, IrqStormReachable s →
       s.control &&& IRQ_STORM_CTRL_ENABLE = 0 → s.irq_asserted = false) ∧
    (∀ (now : Int) (s : ISAIrqStormState),
       s.control &&& IRQ_STORM_CTRL_ENABLE = 0 →
       irq_storm_timer_cb now s = s) := by
  constructor
  · intro s hr hen
    cases ha : s.irq_asserted with
    | false => rfl
    | true => exact absurd hen (irq_storm_inv_reachable s hr ha).1
  · intro now s hen
    exact irq_storm_timer_cb_disabled now s hen

/-- Witness for C10 at the disabled default configuration. -/
theorem irq_storm_disabled_line_low_witness :
    s_disabled.irq_asserted = false ∧
    irq_storm_timer_cb 7 s_disabled = s_disabled :=
  ⟨irq_storm_disabled_line_low.1 s_disabled
      ⟨cfg_disabled, 0, s_disabled, [], by decide, rfl⟩ (by decide),
   irq_storm_disabled_line_low.2 7 s_disabled (by decide)⟩

/-- C6: a non-zero ACK write while the line is asserted deasserts the
line (and changes nothing else); a zero ACK write changes nothing; an
ACK write while the line is low is a no-op on the whole state; and in
edge mode (LEVEL clear, in any reachable state) ACK writes have no
effect at all. -/
theorem irq_storm_ack_semantics (s : ISAIrqStormState) (val : Nat)
    (now : Int) :
    (val ≠ 0 → s.irq_asserted = true →
      irq_storm_write IRQ_STORM_REG_ACK val now s =
        { s with irq_asserted := false }) ∧
    (irq_storm_write IRQ_STORM_REG_ACK 0 now s = s) ∧
    (s.irq_asserted = false →
      irq_storm_write IRQ_STORM_REG_ACK val now s = s) ∧
    (IrqStormReachable s → s.control &&& IRQ_STORM_CTRL_LEVEL = 0 →
      irq_storm_write IRQ_STORM_REG_ACK val now s = s) := by
  have hw : ∀ v, irq_storm_write IRQ_STORM_REG_ACK v now s =
      irq_storm_write_ack v s := by
    intro v
    simp [irq_storm_write, IRQ_STORM_REG_ACK, IRQ_STORM_REG_CTRL,
      IRQ_STORM_REG_BURST, IRQ_STORM_REG_PERIOD_US]
  have h3 : s.irq_asserted = false →
      irq_storm_write IRQ_STORM_REG_ACK val now s = s := by
    intro ha
    rw [hw val, irq_storm_write_ack_eq]
    split_ifs with hv
    · cases s
      simp_all
    · rfl
  refine ⟨?_, ?_, h3, ?_⟩
  · intro hv ha
    rw [hw val, irq_storm_write_ack_eq, if_pos hv]
  · rw [hw 0, irq_storm_write_ack_eq]
    simp
  · intro hr hlv
    cases ha : s.irq_asserted with
    | false => exact h3 ha
    | true => exact absurd hlv (irq_storm_inv_reachable s hr ha).2

/-- Witness for C6: on the reachable edge-mode state, an ACK write with
value 1 is a no-op. -/
theorem irq_storm_ack_semantics_witness :
    irq_storm_write IRQ_STORM_REG_ACK 1 0 s_edge = s_edge :=
  (irq_storm_ack_semantics s_edge 1 0).2.2.2
    ⟨cfg_edge, 0, s_edge, [], by decide, rfl⟩ (by decide)

/-- C9: for every offset outside the defined register set, a read
returns 0 and a write leaves the entire device state unchanged. -/
theorem irq_storm_undefined_offsets (addr : Nat)
    (h : addr ∉ irq_storm_defined_offsets) (s : ISAIrqStormState)
    (val : Nat) (now : Int) :
    irq_storm_read s addr = 0 ∧ irq_storm_write addr val now s = s := by
  simp only [irq_storm_defined_offsets, List.mem_cons,
    List.not_mem_nil, or_false, not_or] at h
  obtain ⟨h00, h01, h02, h03, h04, h08, h0c, h10, h14, h18, h1c⟩ := h
  constructor
  · simp [irq_storm_read, h00, h01, h02, h03, h04, h08, h0c, h10, h14,
      h18]
  · simp [irq_storm_write, h00, h02, h04, h1c]

/-- Witness for C9 at offset 5 (inside the PERIOD_US footprint but not
a decoded case label). -/
theorem irq_storm_undefined_offsets_witness :
    irq_storm_read s_edge 5 = 0 ∧ irq_storm_write 5 1 0 s_edge = s_edge :=
  irq_storm_undefined_offsets 5 (by decide) s_edge 1 0

lemma timer_cb_control (now : Int) (s : ISAIrqStormState) :
    (irq_storm_timer_cb now s).control = s.control := by
  by_cases hen : s.control &&& IRQ_STORM_CTRL_ENABLE = 0
  · rw [irq_storm_timer_cb_disabled now s hen]
  · by_cases hlv : s.control &&& IRQ_STORM_CTRL_LEVEL = 0
    · obtain ⟨d, hd⟩ := irq_storm_timer_cb_edge now s hen hlv
      rw [hd]
    · cases ha : s.irq_asserted with
      | false =>
        obtain ⟨d, hd⟩ := irq_storm_timer_cb_level_raise now s hen hlv ha
        rw [hd]
      | true =>
        obtain ⟨d, hd⟩ := irq_storm_timer_cb_level_held now s hen hlv ha
        rw [hd]

lemma timer_cb_levelMeasure (now : Int) (s : ISAIrqStormState)
    (hlv : s.control &&& IRQ_STORM_CTRL_LEVEL ≠ 0) :
    levelMeasure (irq_storm_timer_cb now s) = levelMeasure s := by
  by_cases hen : s.control &&& IRQ_STORM_CTRL_ENABLE = 0
  · rw [irq_storm_timer_cb_disabled now s hen]
  · cases ha : s.irq_asserted with
    | false =>
      obtain ⟨d, hd⟩ := irq_storm_timer_cb_level_raise now s hen hlv ha
      rw [hd]
      simp [levelMeasure, ha]
    | true =>
      obtain ⟨d, hd⟩ := irq_storm_timer_cb_level_held now s hen hlv ha
      rw [hd]
      simp [levelMeasure, ha]

lemma run_fires_level (nows : List Int) (s : ISAIrqStormState)
    (hlv : s.control &&& IRQ_STORM_CTRL_LEVEL ≠ 0) :
    (irq_storm_run (nows.map IrqStormOp.fire) s).control = s.control ∧
    levelMeasure (irq_storm_run (nows.map IrqStormOp.fire) s) =
      levelMeasure s := by
  induction nows generalizing s with
  | nil => exact ⟨rfl, rfl⟩
  | cons now rest ih =>
    simp only [List.map_cons, irq_storm_run, irq_storm_step]
    have hc := timer_cb_control now s
    have hlv' : (irq_storm_timer_cb now s).control &&&
        IRQ_STORM_CTRL_LEVEL ≠ 0 := by rw [hc]; exact hlv
    obtain ⟨ih1, ih2⟩ := ih (irq_storm_timer_cb now s) hlv'
    exact ⟨by rw [ih1, hc],
      by rw [ih2, timer_cb_levelMeasure now s hlv]⟩

/-- C2: while LEVEL is set, a fire that finds the line low raises it
and adds exactly 1 to `pulses_emitted`; a fire that finds it high
leaves both the line and `pulses_emitted` alone but still counts a
timer fire; and across any sequence of consecutive fires with no
intervening ACK, `pulses_emitted` grows by at most 1. -/
theorem irq_storm_level_single_assert (s : ISAIrqStormState) (now : Int)
    (hlv : s.control &&& IRQ_STORM_CTRL_LEVEL ≠ 0) :
    (s.control &&& IRQ_STORM_CTRL_ENABLE ≠ 0 → s.irq_asserted = false →
      (irq_storm_timer_cb now s).irq_asserted = true ∧
      (irq_storm_timer_cb now s).pulses_emitted = s.pulses_emitted + 1 ∧
      (irq_storm_timer_cb now s).timer_cb_count = s.timer_cb_count + 1) ∧
    (s.control &&& IRQ_STORM_CTRL_ENABLE ≠ 0 → s.irq_asserted = true →
      (irq_storm_timer_cb now s).irq_asserted = true ∧
      (irq_storm_timer_cb now s).pulses_emitted = s.pulses_emitted ∧
      (irq_storm_timer_cb now s).timer_cb_count = s.timer_cb_count + 1) ∧
    (∀ nows : List Int,
      (irq_storm_run (nows.map IrqStormOp.fire) s).pulses_emitted ≤
        s.pulses_emitted + 1 ∧
      (s.irq_asserted = true →
        (irq_storm_run (nows.map IrqStormOp.fire) s).irq_asserted =
          true)) := by
  refine ⟨?_, ?_, ?_⟩
  · intro hen ha
    obtain ⟨d, hd⟩ := irq_storm_timer_cb_level_raise now s hen hlv ha
    rw [hd]
    exact ⟨rfl, rfl, rfl⟩
  · intro hen ha
    obtain ⟨d, hd⟩ := irq_storm_timer_cb_level_held now s hen hlv ha
    rw [hd]
    exact ⟨ha, rfl, rfl⟩
  · intro nows
    have hm := (run_fires_level nows s hlv).2
    have hple := pulses_le_run (nows.map IrqStormOp.fire) s
    unfold levelMeasure at hm
    constructor
    · split_ifs at hm <;> omega
    · intro ha
      split_ifs at hm <;>
        first
        | assumption
        | (exfalso; omega)

/-- Witness for C2 on the level-mode fixture: one fire adds one pulse;
three consecutive fires still add at most one. -/
theorem irq_storm_level_single_assert_witness :
    (irq_storm_timer_cb 0 s_level).pulses_emitted =
      s_level.pulses_emitted + 1 ∧
    (irq_storm_run ([0, 50, 100].map IrqStormOp.fire)
        s_level).pulses_emitted ≤ s_level.pulses_emitted + 1 :=
  ⟨((irq_storm_level_single_assert s_level 0 (by decide)).1
      (by decide) (by decide)).2.1,
   ((irq_storm_level_single_assert s_level 0 (by decide)).2.2
      [0, 50, 100]).1⟩

/-- C4: while LEVEL is clear, a fire adds exactly
`min (max 1 burst) IRQ_STORM_MAX_BURST` edge pulses to
`pulses_emitted` (the loop emits exactly that many `qemu_irq_pulse`
transients), counts one timer fire, and leaves the line level
unchanged — in particular deasserted if it was deasserted. -/
theorem irq_storm_edge_burst (s : ISAIrqStormState) (now : Int)
    (hen : s.control &&& IRQ_STORM_CTRL_ENABLE ≠ 0)
    (hlv : s.control &&& IRQ_STORM_CTRL_LEVEL = 0) :
    (irq_storm_timer_cb now s).pulses_emitted =
      s.pulses_emitted + min (max 1 s.burst) IRQ_STORM_MAX_BURST ∧
    (irq_storm_timer_cb now s).timer_cb_count = s.timer_cb_count + 1 ∧
    (irq_storm_timer_cb now s).irq_asserted = s.irq_asserted ∧
    (s.irq_asserted = false →
      (irq_storm_timer_cb now s).irq_asserted = false) := by
  obtain ⟨d, hd⟩ := irq_storm_timer_cb_edge now s hen hlv
  rw [hd]
  exact ⟨rfl, rfl, rfl, fun ha => ha⟩

/-- Witness for C4: with BURST=5, one fire adds exactly 5 pulses and
leaves the line low. -/
theorem irq_storm_edge_burst_witness :
    (irq_storm_timer_cb 100000 s_edge).pulses_emitted = 5 ∧
    (irq_storm_timer_cb 100000 s_edge).irq_asserted = false := by
  obtain ⟨h1, h2, h3, h4⟩ :=
    irq_storm_edge_burst s_edge 100000 (by decide) (by decide)
  refine ⟨?_, h4 rfl⟩
  rw [h1]
  decide

lemma irq_storm_period_ns_pos (s : ISAIrqStormState) :
    0 < irq_storm_period_ns s := by
  unfold irq_storm_period_ns SCALE_US
  have h := Nat.le_max_left 1 s.period_us
  calc 0 < 1 * 1000 := by norm_num
    _ ≤ max 1 s.period_us * 1000 := Nat.mul_le_mul_right 1000 h

/-- Characterisation of the rescheduling arithmetic: the deadline is
advanced by one period; if that is not past `now`, nothing else
happens, otherwise it jumps in one step to the unique multiple of the
period (counted from the old deadline) that lands strictly past `now`
within one period. -/
lemma irq_storm_schedule_next_spec (now : Int) (s : ISAIrqStormState)
    (hen : s.control &&& IRQ_STORM_CTRL_ENABLE ≠ 0) :
    (now < s.next_deadline_ns + (irq_storm_period_ns s : Int) →
      (irq_storm_schedule_next now s).next_deadline_ns =
        s.next_deadline_ns + (irq_storm_period_ns s : Int)) ∧
    (s.next_deadline_ns + (irq_storm_period_ns s : Int) ≤ now →
      ∃ k : Nat, 2 ≤ k ∧
        (irq_storm_schedule_next now s).next_deadline_ns =
          s.next_deadline_ns + ((k * irq_storm_period_ns s : Nat) : Int) ∧
        now < (irq_storm_schedule_next now s).next_deadline_ns ∧
        s.next_deadline_ns +
          (((k - 1) * irq_storm_period_ns s : Nat) : Int) ≤ now) := by
  have hp : 0 < irq_storm_period_ns s := irq_storm_period_ns_pos s
  unfold irq_storm_schedule_next
  rw [if_neg hen]
  dsimp only
  constructor
  · intro hfut
    rw [if_neg (not_le.mpr hfut)]
  · intro hpast
    rw [if_pos hpast]
    dsimp only
    have hDc : (((now - (s.next_deadline_ns +
        (irq_storm_period_ns s : Int))).toNat : Int)) =
        now - (s.next_deadline_ns + (irq_storm_period_ns s : Int)) :=
      Int.toNat_of_nonneg (by omega)
    generalize hP : irq_storm_period_ns s = p at *
    generalize hN : s.next_deadline_ns = n at *
    generalize hDD : (now - (n + (p : Int))).toNat = D at *
    have hdm := Nat.div_add_mod D p
    have hrlt := Nat.mod_lt D hp
    generalize hq : D / p = q at *
    generalize hr : D % p = r at *
    have hmul1 : (q + 1) * p = p * q + p := by ring
    have hmul2 : (q + 2) * p = p * q + p + p := by ring
    have hk1 : q + 2 - 1 = q + 1 := rfl
    refine ⟨q + 2, by omega, ?_, ?_, ?_⟩
    · rw [hmul1, hmul2]
      generalize p * q = A at hdm ⊢
      omega
    · rw [hmul1]
      generalize p * q = A at hdm ⊢
      omega
    · rw [hk1, hmul1]
      generalize p * q = A at hdm ⊢
      omega

/-- C3: a fire counts exactly one `timer_fires` increment, then the
deadline is advanced by one period; if the result has not passed
`now`, that is the new deadline, otherwise the deadline jumps in a
single step by the number of whole periods needed to land strictly
past `now` (the previous multiple being at or before `now`), never
once per missed period. -/
theorem irq_storm_drift_correction (now : Int) (s : ISAIrqStormState)
    (hen : s.control &&& IRQ_STORM_CTRL_ENABLE ≠ 0) :
    (irq_storm_timer_cb now s).timer_cb_count = s.timer_cb_count + 1 ∧
    (now < s.next_deadline_ns + (irq_storm_period_ns s : Int) →
      (irq_storm_timer_cb now s).next_deadline_ns =
        s.next_deadline_ns + (irq_storm_period_ns s : Int)) ∧
    (s.next_deadline_ns + (irq_storm_period_ns s : Int) ≤ now →
      ∃ k : Nat, 2 ≤ k ∧
        (irq_storm_timer_cb now s).next_deadline_ns =
          s.next_deadline_ns + ((k * irq_storm_period_ns s : Nat) : Int) ∧
        now < (irq_storm_timer_cb now s).next_deadline_ns ∧
        s.next_deadline_ns +
          (((k - 1) * irq_storm_period_ns s : Nat) : Int) ≤ now) := by
  unfold irq_storm_timer_cb
  rw [if_neg hen]
  dsimp only
  by_cases hlv : s.control &&& IRQ_STORM_CTRL_LEVEL = 0
  · rw [if_neg (not_not_intro hlv)]
    have hspec := irq_storm_schedule_next_spec now
      { s with timer_cb_count := s.timer_cb_count + 1,
               pulses_emitted := s.pulses_emitted +
                 min (max 1 s.burst) IRQ_STORM_MAX_BURST } hen
    obtain ⟨d, hd⟩ := irq_storm_schedule_next_ex now
      { s with timer_cb_count := s.timer_cb_count + 1,
               pulses_emitted := s.pulses_emitted +
                 min (max 1 s.burst) IRQ_STORM_MAX_BURST }
    exact ⟨by rw [hd], hspec.1, hspec.2⟩
  · rw [if_pos hlv]
    by_cases ha : s.irq_asserted = true
    · rw [if_neg (not_not_intro ha)]
      have hspec := irq_storm_schedule_next_spec now
        { s with timer_cb_count := s.timer_cb_count + 1 } hen
      obtain ⟨d, hd⟩ := irq_storm_schedule_next_ex now
        { s with timer_cb_count := s.timer_cb_count + 1 }
      exact ⟨by rw [hd], hspec.1, hspec.2⟩
    · rw [if_pos ha]
      have hspec := irq_storm_schedule_next_spec now
        { s with timer_cb_count := s.timer_cb_count + 1,
                 irq_asserted := true,
                 pulses_emitted := s.pulses_emitted + 1 } hen
      obtain ⟨d, hd⟩ := irq_storm_schedule_next_ex now
        { s with timer_cb_count := s.timer_cb_count + 1,
                 irq_asserted := true,
                 pulses_emitted := s.pulses_emitted + 1 }
      exact ⟨by rw [hd], hspec.1, hspec.2⟩

/-- Witness for C3: a fire handled 3.7 periods after the original
deadline (period 1 µs = 1000 ns, deadline 0, now 3700) moves the
deadline to exactly 4 periods and counts one fire. -/
theorem irq_storm_drift_correction_witness :
    (irq_storm_timer_cb 3700 s_drift).next_deadline_ns = 4000 ∧
    (irq_storm_timer_cb 3700 s_drift).timer_cb_count =
      s_drift.timer_cb_count + 1 := by
  have h := irq_storm_drift_correction 3700 s_drift (by decide)
  exact ⟨by decide, h.1⟩

/-- C8: realize fails (returning no device, hence binding no IRQ,
creating no timer and mapping no IO region — in the C both
`error_setg` returns precede all resource acquisition) iff the line
number exceeds 15 or the io window is smaller than 0x20 bytes (highest
register offset 0x1C plus 4); on success the initial LEVEL/ENABLE
flags are applied, the line starts low and all counters start at 0. -/
theorem irq_storm_realize_spec (cfg : IrqStormConfig) (now : Int) :
    (irq_storm_realize cfg now = none ↔
      cfg.isairq > 15 ∨ cfg.iosize < 0x20) ∧
    (∀ s, irq_storm_realize cfg now = some s →
      s.control = (if cfg.level_triggered then 2 else 0) +
        (if cfg.start_enabled then 1 else 0) ∧
      s.irq_asserted = false ∧
      s.pulses_emitted = 0 ∧ s.timer_cb_count = 0 ∧
      s.config_writes = 0 ∧ s.enable_toggle_count = 0) := by
  rw [irq_storm_realize_eq]
  constructor
  · by_cases hbad : cfg.isairq > 15 ∨ cfg.iosize < 0x20 <;>
      simp [hbad]
  · intro s h
    by_cases hbad : cfg.isairq > 15 ∨ cfg.iosize < 0x20
    · rw [if_pos hbad] at h
      exact absurd h (by simp)
    · rw [if_neg hbad] at h
      injection h with h
      rw [← h]
      exact ⟨rfl, rfl, rfl, rfl, rfl, rfl⟩

/-- Witness for C8: an out-of-range line number is rejected; the
level-triggered enabled default configuration realizes with CTRL=3. -/
theorem irq_storm_realize_spec_witness :
    irq_storm_realize cfg_bad_irq 0 = none ∧ s_level.control = 3 := by
  have h1 := (irq_storm_realize_spec cfg_bad_irq 0).1.mpr
    (Or.inl (by decide))
  have h2 := (irq_storm_realize_spec cfg_level 0).2 s_level (by decide)
  refine ⟨h1, ?_⟩
  rw [h2.1]
  decide

lemma shiftRight_shiftLeft_or_mod (v : Nat) :
    (v >>> 32) <<< 32 ||| v % 2 ^ 32 = v := by
  apply Nat.eq_of_testBit_eq
  intro i
  rw [Nat.testBit_lor, Nat.testBit_shiftLeft, Nat.testBit_shiftRight,
    Nat.testBit_mod_two_pow]
  by_cases hi : i < 32
  · simp [hi, Nat.not_le.mpr hi]
  · have h32 : 32 ≤ i := Nat.le_of_not_lt hi
    simp [h32, hi, Nat.add_sub_cancel' h32]

lemma hi_word_lt (v : Nat) (hv : v < 2 ^ 64) : v >>> 32 < 2 ^ 32 := by
  rw [Nat.shiftRight_eq_div_pow]
  exact Nat.div_lt_of_lt_mul (by exact_mod_cast hv)

lemma hi_word_middle {v1 v2 v3 : Nat} (h12 : v1 ≤ v2) (h23 : v2 ≤ v3)
    (hh : v1 >>> 32 = v3 >>> 32) : v2 >>> 32 = v3 >>> 32 := by
  simp only [Nat.shiftRight_eq_div_pow] at *
  exact le_antisymm (Nat.div_le_div_right h23)
    (hh ▸ Nat.div_le_div_right h12)

/-- An accepted attempt of the stable-read protocol returns exactly the
counter value at the LO sample point, provided the counter only grew
between the three samples and fits in 64 bits. -/
lemma stable_read_attempt_eq {s1 s2 s3 : ISAIrqStormState} {r : Nat}
    (h12 : s1.pulses_emitted ≤ s2.pulses_emitted)
    (h23 : s2.pulses_emitted ≤ s3.pulses_emitted)
    (h3 : s3.pulses_emitted < 2 ^ 64)
    (hacc : stable_read_attempt s1 s2 s3 = some r) :
    r = s2.pulses_emitted := by
  unfold stable_read_attempt at hacc
  have hrd_hi : ∀ t : ISAIrqStormState,
      irq_storm_read t IRQ_STORM_REG_PULSES_HI =
        (t.pulses_emitted >>> 32) % 2 ^ 32 := by
    intro t
    simp [irq_storm_read, IRQ_STORM_REG_PULSES_HI, IRQ_STORM_REG_CTRL,
      IRQ_STORM_REG_IRQ, IRQ_STORM_REG_BURST, IRQ_STORM_REG_STATUS,
      IRQ_STORM_REG_PERIOD_US, IRQ_STORM_REG_PULSES_LO]
  have hrd_lo : irq_storm_read s2 IRQ_STORM_REG_PULSES_LO =
      s2.pulses_emitted % 2 ^ 32 := by
    simp [irq_storm_read, IRQ_STORM_REG_PULSES_LO, IRQ_STORM_REG_CTRL,
      IRQ_STORM_REG_IRQ, IRQ_STORM_REG_BURST, IRQ_STORM_REG_STATUS,
      IRQ_STORM_REG_PERIOD_US]
  rw [hrd_hi, hrd_hi, hrd_lo] at hacc
  have e1 : s1.pulses_emitted >>> 32 < 2 ^ 32 :=
    hi_word_lt _ (lt_of_le_of_lt (h12.trans h23) h3)
  have e3 : s3.pulses_emitted >>> 32 < 2 ^ 32 := hi_word_lt _ h3
  rw [Nat.mod_eq_of_lt e1, Nat.mod_eq_of_lt e3] at hacc
  dsimp only at hacc
  split_ifs at hacc with hh
  injection hacc with hacc
  rw [← hacc, ← hi_word_middle h12 h23 hh]
  exact shiftRight_shiftLeft_or_mod s2.pulses_emitted

/-- The retry loop returns the value of the first accepted attempt. -/
lemma read_u64_lohi_stable_mem
    {attempts : List (ISAIrqStormState × ISAIrqStormState ×
      ISAIrqStormState)} {r : Nat}
    (h : read_u64_lohi_stable attempts = some r) :
    ∃ t ∈ attempts, stable_read_attempt t.1 t.2.1 t.2.2 = some r := by
  induction attempts with
  | nil => exact Option.noConfusion h
  | cons t rest ih =>
    obtain ⟨a, b, c⟩ := t
    unfold read_u64_lohi_stable at h
    cases hatt : stable_read_attempt a b c with
    | some r2 =>
      rw [hatt] at h
      injection h with h
      subst h
      exact ⟨(a, b, c), List.mem_cons_self _ _, hatt⟩
    | none =>
      rw [hatt] at h
      obtain ⟨t', ht', hs⟩ := ih h
      exact ⟨t', List.mem_cons_of_mem _ ht', hs⟩

/-- C7: the consumer's stable read samples HI, LO, HI and accepts only
when the two HI samples agree; whenever the device evolved only by
register writes and fires between the three samples (so the counter is
monotone) and the counter fits in 64 bits, an accepted read returns
exactly the counter value at the LO sample point — a value the
serialization of fires produced, never a torn one. -/
theorem irq_storm_stable_read_consistent
    (attempts : List (ISAIrqStormState × ISAIrqStormState ×
      ISAIrqStormState))
    (hdev : ∀ a b c, (a, b, c) ∈ attempts →
      (∃ ops, b = irq_storm_run ops a) ∧
      (∃ ops, c = irq_storm_run ops b) ∧
      c.pulses_emitted < 2 ^ 64)
    (r : Nat) (hr : read_u64_lohi_stable attempts = some r) :
    ∃ a b c, (a, b, c) ∈ attempts ∧
      stable_read_attempt a b c = some r ∧ r = b.pulses_emitted := by
  obtain ⟨⟨a, b, c⟩, hmem, hacc⟩ := read_u64_lohi_stable_mem hr
  obtain ⟨⟨ops1, hb⟩, ⟨ops2, hc⟩, hlt⟩ := hdev a b c hmem
  have h12 : a.pulses_emitted ≤ b.pulses_emitted := by
    rw [hb]; exact pulses_le_run ops1 a
  have h23 : b.pulses_emitted ≤ c.pulses_emitted := by
    rw [hc]; exact pulses_le_run ops2 b
  exact ⟨a, b, c, hmem, hacc, stable_read_attempt_eq h12 h23 hlt hacc⟩

/-- Witness for C7: one accepted attempt around a single edge fire
returns the post-fire value 5. -/
theorem irq_storm_stable_read_consistent_witness :
    ∃ a b c,
      (a, b, c) ∈ [(s_edge, s_edge_fired, s_edge_fired)] ∧
      stable_read_attempt a b c = some 5 ∧ 5 = b.pulses_emitted :=
  irq_storm_stable_read_consistent [(s_edge, s_edge_fired, s_edge_fired)]
    (by
      intro a b c h
      simp only [List.mem_singleton, Prod.mk.injEq] at h
      obtain ⟨h1, h2, h3⟩ := h
      subst h1
      subst h2
      subst h3
      exact ⟨⟨[IrqStormOp.fire 100000], by decide⟩, ⟨[], rfl⟩, by decide⟩)
    5 (by decide)

end IrqStorm
